import Mathlib

/-!
# Verification of the ecom backend domain layer

A shallow embedding of the Go e-commerce backend's domain layer
(`domain/value/money.go`, `domain/value/quantity.go`,
`domain/entity/product.go`, `domain/entity/basket.go`,
`domain/entity/order.go`) and of the checkout orchestration
(`application/service/order_service.go`, `CreateOrder`).

Modelling decisions:
* Go `int64` / `int` (64-bit) arithmetic is modelled on `Int` with an
  explicit two's-complement wrap (`wrap64`), since Go's fixed-size signed
  integers wrap on overflow.
* Go's `(value, error)` returns are modelled as `Except String` carrying
  the exact error strings of the source.
* `time.Time` fields (`createdAt`/`updatedAt`) and `uuid` generation are
  dropped / taken as explicit parameters: they are environment inputs with
  no bearing on the verified behaviour.
* Go `nil`-pointer checks on value-object arguments vanish: the embedding
  passes value objects by value, which is the only way the Go call sites
  use them.
* Mutation of entities is modelled functionally: a method that mutates its
  receiver returns the updated entity; a method that returns an error
  without mutating returns `Except.error`, leaving the caller with the
  unchanged value.
* The storage collaborators (product/basket/order repositories) are
  modelled as the sequential in-memory store `Store` (association lists
  keyed by entity id), with `findByID` returning the first entry with a
  matching id and `update` replacing the first entry with a matching id.
-/

/-! ## 64-bit integer model -/

/-- 2^64, the modulus of Go's 64-bit integer types. -/
def i64Mod : Int := 18446744073709551616

/-- 2^63, the first integer that no longer fits in Go's `int64`. -/
def i64Half : Int := 9223372036854775808

/-- Two's-complement wrap of an integer into the `int64` range,
as performed by Go's `int64`/`int` arithmetic on overflow. -/
def wrap64 (x : Int) : Int :=
  (x + i64Half) % i64Mod - i64Half

/-! ## Money (`domain/value/money.go`)

Go stores `amount int64` (cents) and `currency string`. -/

structure Money where
  amount : Int
  currency : String
deriving DecidableEq, Repr

/-- `NewMoney` from `money.go`: rejects a negative amount and an empty
currency. -/
def NewMoney (amount : Int) (currency : String) : Except String Money :=
  if amount < 0 then .error "amount cannot be negative"
  else if currency = "" then .error "currency cannot be empty"
  else .ok ⟨amount, currency⟩

/-- `Money.Add` from `money.go`: requires equal currencies, then rebuilds
via `NewMoney` on the (wrapping) `int64` sum. -/
def Money.Add (m other : Money) : Except String Money :=
  if m.currency ≠ other.currency then .error "cannot add money with different currencies"
  else NewMoney (wrap64 (m.amount + other.amount)) m.currency

/-- `Money.Multiply` from `money.go`: rejects a negative factor, then
rebuilds via `NewMoney` on the (wrapping) `int64` product. -/
def Money.Multiply (m : Money) (quantity : Int) : Except String Money :=
  if quantity < 0 then .error "quantity cannot be negative"
  else NewMoney (wrap64 (m.amount * quantity)) m.currency

/-- A `Money` value as produced by `NewMoney` on an `int64`: non-negative
amount within the `int64` range, non-empty currency. -/
def Money.Valid (m : Money) : Prop :=
  0 ≤ m.amount ∧ m.amount < i64Half ∧ m.currency ≠ ""

instance (m : Money) : Decidable m.Valid := by
  unfold Money.Valid; infer_instance

/-! ## Quantity (`domain/value/quantity.go`)

Go stores `value int` (64-bit on the target platforms). -/

structure Quantity where
  value : Int
deriving DecidableEq, Repr

/-- `NewQuantity` from `quantity.go`: rejects a negative value. -/
def NewQuantity (value : Int) : Except String Quantity :=
  if value < 0 then .error "quantity cannot be negative"
  else .ok ⟨value⟩

/-- `Quantity.Add` from `quantity.go`: rebuilds via `NewQuantity` on the
(wrapping) `int` sum. -/
def Quantity.Add (q other : Quantity) : Except String Quantity :=
  NewQuantity (wrap64 (q.value + other.value))

/-- `Quantity.Subtract` from `quantity.go`: computes the (wrapping) `int`
difference, errors if negative, else rebuilds via `NewQuantity`. -/
def Quantity.Subtract (q other : Quantity) : Except String Quantity :=
  let result := wrap64 (q.value - other.value)
  if result < 0 then .error "resulting quantity cannot be negative"
  else NewQuantity result

/-- `Quantity.IsZero` from `quantity.go`. -/
def Quantity.IsZero (q : Quantity) : Bool :=
  q.value = 0

/-! ## Product (`domain/entity/product.go`)

Timestamps and the generated uuid are dropped / passed explicitly. -/

structure Product where
  id : String
  name : String
  description : String
  price : Money
  stock : Quantity
deriving DecidableEq, Repr

/-- `NewProduct` from `product.go` (uuid generation modelled by the `id`
parameter; the Go nil-pointer checks on `price`/`stock` vanish because the
embedding passes the value objects by value). -/
def NewProduct (id name description : String) (price : Money) (stock : Quantity) :
    Except String Product :=
  if name = "" then .error "product name cannot be empty"
  else .ok ⟨id, name, description, price, stock⟩

/-- `ReconstructProduct` from `product.go`: no validation at all. -/
def ReconstructProduct (id name description : String) (price : Money) (stock : Quantity) :
    Product :=
  ⟨id, name, description, price, stock⟩

/-- `Product.ReduceStock` from `product.go`: delegates to
`Quantity.Subtract` and maps its failure to "insufficient stock". -/
def Product.ReduceStock (p : Product) (quantity : Quantity) : Except String Product :=
  match p.stock.Subtract quantity with
  | .error _ => .error "insufficient stock"
  | .ok newStock => .ok { p with stock := newStock }

/-! ## Basket (`domain/entity/basket.go`) -/

structure BasketItem where
  productID : String
  quantity : Quantity
  price : Money
deriving DecidableEq, Repr

/-- `NewBasketItem` from `basket.go`: rejects an empty product id and a
zero quantity. -/
def NewBasketItem (productID : String) (quantity : Quantity) (price : Money) :
    Except String BasketItem :=
  if productID = "" then .error "product ID cannot be empty"
  else if quantity.IsZero then .error "quantity must be greater than zero"
  else .ok ⟨productID, quantity, price⟩

/-- `BasketItem.Subtotal` from `basket.go`. -/
def BasketItem.Subtotal (bi : BasketItem) : Except String Money :=
  bi.price.Multiply bi.quantity.value

structure Basket where
  id : String
  items : List BasketItem
deriving DecidableEq, Repr

/-- `NewBasket` from `basket.go` (uuid modelled by the `id` parameter). -/
def NewBasket (id : String) : Basket :=
  ⟨id, []⟩

/-- `ReconstructBasket` from `basket.go`: no validation at all. -/
def ReconstructBasket (id : String) (items : List BasketItem) : Basket :=
  ⟨id, items⟩

/-- The loop of `Basket.AddItem`: the first item with a matching product id
is replaced by a merged item (summed quantity, incoming price); if no item
matches, a fresh item is appended at the end. -/
def addItemToList (productID : String) (quantity : Quantity) (price : Money) :
    List BasketItem → Except String (List BasketItem)
  | [] =>
    match NewBasketItem productID quantity price with
    | .error e => .error e
    | .ok item => .ok [item]
  | item :: rest =>
    if item.productID = productID then
      match item.quantity.Add quantity with
      | .error e => .error e
      | .ok newQuantity =>
        match NewBasketItem productID newQuantity price with
        | .error e => .error e
        | .ok newItem => .ok (newItem :: rest)
    else
      match addItemToList productID quantity price rest with
      | .error e => .error e
      | .ok rest' => .ok (item :: rest')

/-- `Basket.AddItem` from `basket.go`. -/
def Basket.AddItem (b : Basket) (productID : String) (quantity : Quantity) (price : Money) :
    Except String Basket :=
  match addItemToList productID quantity price b.items with
  | .error e => .error e
  | .ok items' => .ok { b with items := items' }

/-- The loop of `Basket.RemoveItem`: drops the first item with a matching
product id, errors if none matches. -/
def removeItemFromList (productID : String) :
    List BasketItem → Except String (List BasketItem)
  | [] => .error "item not found in basket"
  | item :: rest =>
    if item.productID = productID then .ok rest
    else
      match removeItemFromList productID rest with
      | .error e => .error e
      | .ok rest' => .ok (item :: rest')

/-- `Basket.RemoveItem` from `basket.go`. -/
def Basket.RemoveItem (b : Basket) (productID : String) : Except String Basket :=
  match removeItemFromList productID b.items with
  | .error e => .error e
  | .ok items' => .ok { b with items := items' }

/-- The loop of `Basket.UpdateItemQuantity`: replaces the quantity of the
first item with a matching product id (keeping its stored price), errors if
none matches. -/
def updateItemInList (productID : String) (quantity : Quantity) :
    List BasketItem → Except String (List BasketItem)
  | [] => .error "item not found in basket"
  | item :: rest =>
    if item.productID = productID then
      match NewBasketItem productID quantity item.price with
      | .error e => .error e
      | .ok newItem => .ok (newItem :: rest)
    else
      match updateItemInList productID quantity rest with
      | .error e => .error e
      | .ok rest' => .ok (item :: rest')

/-- `Basket.UpdateItemQuantity` from `basket.go`: a zero quantity delegates
to `RemoveItem`. -/
def Basket.UpdateItemQuantity (b : Basket) (productID : String) (quantity : Quantity) :
    Except String Basket :=
  if quantity.IsZero then b.RemoveItem productID
  else
    match updateItemInList productID quantity b.items with
    | .error e => .error e
    | .ok items' => .ok { b with items := items' }

/-- `Basket.Clear` from `basket.go`. -/
def Basket.Clear (b : Basket) : Basket :=
  { b with items := [] }

/-- `Basket.IsEmpty` from `basket.go`. -/
def Basket.IsEmpty (b : Basket) : Bool :=
  b.items.isEmpty

/-- The summation loop of `Basket.Total`: folds `Subtotal` and `Money.Add`
over the items. -/
def sumBasketSubtotals (total : Money) : List BasketItem → Except String Money
  | [] => .ok total
  | item :: rest =>
    match item.Subtotal with
    | .error e => .error e
    | .ok subtotal =>
      match total.Add subtotal with
      | .error e => .error e
      | .ok total' => sumBasketSubtotals total' rest

/-- `Basket.Total` from `basket.go`: zero USD for an empty basket, else the
fold of subtotals starting from zero in the first item's currency. -/
def Basket.Total (b : Basket) : Except String Money :=
  match b.items with
  | [] => NewMoney 0 "USD"
  | first :: _ =>
    match NewMoney 0 first.price.currency with
    | .error e => .error e
    | .ok zero => sumBasketSubtotals zero b.items

/-! ## Order (`domain/entity/order.go`) -/

inductive OrderStatus where
  | pending
  | confirmed
  | shipped
  | delivered
  | cancelled
deriving DecidableEq, Repr

structure OrderItem where
  productID : String
  quantity : Quantity
  price : Money
deriving DecidableEq, Repr

/-- `NewOrderItem` from `order.go`: rejects an empty product id and a zero
quantity. -/
def NewOrderItem (productID : String) (quantity : Quantity) (price : Money) :
    Except String OrderItem :=
  if productID = "" then .error "product ID cannot be empty"
  else if quantity.IsZero then .error "quantity must be greater than zero"
  else .ok ⟨productID, quantity, price⟩

/-- `OrderItem.Subtotal` from `order.go`. -/
def OrderItem.Subtotal (oi : OrderItem) : Except String Money :=
  oi.price.Multiply oi.quantity.value

structure Order where
  id : String
  items : List OrderItem
  total : Money
  status : OrderStatus
deriving DecidableEq, Repr

/-- The conversion loop of `NewOrder`: each basket item becomes an order
item through `NewOrderItem`. -/
def toOrderItems : List BasketItem → Except String (List OrderItem)
  | [] => .ok []
  | bi :: rest =>
    match NewOrderItem bi.productID bi.quantity bi.price with
    | .error e => .error e
    | .ok oi =>
      match toOrderItems rest with
      | .error e => .error e
      | .ok ois => .ok (oi :: ois)

/-- The total-computation loop of `NewOrder`: folds `OrderItem.Subtotal`
and `Money.Add` over the order items. -/
def sumOrderSubtotals (total : Money) : List OrderItem → Except String Money
  | [] => .ok total
  | item :: rest =>
    match item.Subtotal with
    | .error e => .error e
    | .ok subtotal =>
      match total.Add subtotal with
      | .error e => .error e
      | .ok total' => sumOrderSubtotals total' rest

/-- `NewOrder` from `order.go` (uuid modelled by the `id` parameter):
rejects an empty item list, converts the basket items, sums the subtotals
starting from zero in the first basket item's currency, and starts in
status `PENDING`. -/
def NewOrder (basketItems : List BasketItem) (id : String) : Except String Order :=
  match basketItems with
  | [] => .error "cannot create order with empty basket"
  | first :: _ =>
    match toOrderItems basketItems with
    | .error e => .error e
    | .ok orderItems =>
      match NewMoney 0 first.price.currency with
      | .error e => .error e
      | .ok zero =>
        match sumOrderSubtotals zero orderItems with
        | .error e => .error e
        | .ok total => .ok ⟨id, orderItems, total, .pending⟩

/-- `Order.Confirm` from `order.go`. -/
def Order.Confirm (o : Order) : Except String Order :=
  if o.status ≠ .pending then .error "only pending orders can be confirmed"
  else .ok { o with status := .confirmed }

/-- `Order.Ship` from `order.go`. -/
def Order.Ship (o : Order) : Except String Order :=
  if o.status ≠ .confirmed then .error "only confirmed orders can be shipped"
  else .ok { o with status := .shipped }

/-- `Order.Deliver` from `order.go`. -/
def Order.Deliver (o : Order) : Except String Order :=
  if o.status ≠ .shipped then .error "only shipped orders can be delivered"
  else .ok { o with status := .delivered }

/-- `Order.Cancel` from `order.go`. -/
def Order.Cancel (o : Order) : Except String Order :=
  if o.status = .delivered then .error "delivered orders cannot be cancelled"
  else if o.status = .cancelled then .error "order is already cancelled"
  else .ok { o with status := .cancelled }

/-! ## Sequential storage model and checkout orchestration
(`application/service/order_service.go`)

The repositories are external collaborators (spec section 6: `findByID`
returns the entity or NotFound, `update` replaces it or NotFound); the
claims stipulate the sequential storage model with no interference, so the
three repositories are modelled as one in-memory `Store` of association
lists keyed by the entity ids. -/

structure Store where
  products : List Product
  baskets : List Basket
  orders : List Order
deriving DecidableEq, Repr

/-- `findByID` on an association list: first entry whose key matches. -/
def findInList {α : Type} (key : α → String) (id : String) : List α → Option α
  | [] => none
  | x :: rest => if key x = id then some x else findInList key id rest

/-- `update` on an association list: replaces the first entry whose key
matches the entity's key; `none` when absent. -/
def updateInList {α : Type} (key : α → String) (entity : α) : List α → Option (List α)
  | [] => none
  | x :: rest =>
    if key x = key entity then some (entity :: rest)
    else
      match updateInList key entity rest with
      | none => none
      | some rest' => some (x :: rest')

/-- `productRepo.FindByID` against the sequential store. -/
def findProduct (st : Store) (id : String) : Except String Product :=
  match findInList Product.id id st.products with
  | some p => .ok p
  | none => .error "product not found"

/-- `basketRepo.FindByID` against the sequential store. -/
def findBasket (st : Store) (id : String) : Except String Basket :=
  match findInList Basket.id id st.baskets with
  | some b => .ok b
  | none => .error "basket not found"

/-- `productRepo.Update` against the sequential store. -/
def updateProductStore (st : Store) (p : Product) : Except String Store :=
  match updateInList Product.id p st.products with
  | some ps => .ok { st with products := ps }
  | none => .error "product not found"

/-- `basketRepo.Update` against the sequential store. -/
def updateBasketStore (st : Store) (b : Basket) : Except String Store :=
  match updateInList Basket.id b st.baskets with
  | some bs => .ok { st with baskets := bs }
  | none => .error "basket not found"

/-- `orderRepo.Save` against the sequential store. -/
def saveOrderStore (st : Store) (o : Order) : Store :=
  { st with orders := o :: st.orders }

/-- The stock pre-check pass of `OrderService.CreateOrder`: for every
basket item, load the product and compare its stock against the requested
quantity. The pass only reads the store (its result carries no store). -/
def checkStock (st : Store) : List BasketItem → Except String Unit
  | [] => .ok ()
  | item :: rest =>
    match findProduct st item.productID with
    | .error e => .error e
    | .ok product =>
      if product.stock.value < item.quantity.value then
        .error ("insufficient stock for product: " ++ product.name)
      else checkStock st rest

/-- The stock-reduction pass of `OrderService.CreateOrder`: for every
basket item, re-load the product from the store, reduce its stock, and
persist the update. -/
def reduceAll (st : Store) : List BasketItem → Except String Store
  | [] => .ok st
  | item :: rest =>
    match findProduct st item.productID with
    | .error e => .error e
    | .ok product =>
      match product.ReduceStock item.quantity with
      | .error e => .error e
      | .ok product' =>
        match updateProductStore st product' with
        | .error e => .error e
        | .ok st' => reduceAll st' rest

/-- `OrderService.CreateOrder` from `order_service.go` (checkout): load the
basket, reject an empty one, run the read-only stock pre-check over all
items, then the stock-reduction pass, build the order from the basket's
items, save it, clear the basket and persist the cleared basket. The
generated order uuid is modelled by the `orderID` parameter. -/
def CreateOrder (st : Store) (basketID orderID : String) :
    Except String (Order × Store) :=
  if basketID = "" then .error "basket ID is required"
  else
    match findBasket st basketID with
    | .error e => .error e
    | .ok basket =>
      if basket.IsEmpty then .error "cannot create order from empty basket"
      else
        match checkStock st basket.items with
        | .error e => .error e
        | .ok _ =>
          match reduceAll st basket.items with
          | .error e => .error e
          | .ok st1 =>
            match NewOrder basket.items orderID with
            | .error e => .error e
            | .ok order =>
              let st2 := saveOrderStore st1 order
              match updateBasketStore st2 basket.Clear with
              | .error e => .error e
              | .ok st3 => .ok (order, st3)

/-! ## Specification-side definitions

These definitions state properties the spec asserts; each is compared with
the behaviour of the source-derived definitions above. -/

/-- The exact integer sum of the items' subtotals (price times quantity),
the value the spec calls "the sum of every item's subtotal". -/
def subtotalSum : List BasketItem → Int
  | [] => 0
  | it :: rest => it.price.amount * it.quantity.value + subtotalSum rest

/-- Repeated addition: the zero Money of m's currency, with m added n
times through Money.Add (the spec's characterisation of multiplication). -/
def addNTimes (m : Money) : Nat → Except String Money
  | 0 => NewMoney 0 m.currency
  | n + 1 =>
    match addNTimes m n with
    | .error e => .error e
    | .ok acc => acc.Add m

/-- The basket invariants kept by constructor-built baskets: pairwise
distinct product ids and strictly positive quantities. -/
def BasketWF (b : Basket) : Prop :=
  b.items.Pairwise (fun x y => x.productID ≠ y.productID) ∧
  (∀ it ∈ b.items, 0 < it.quantity.value)

/-! ## Concrete entities used by witnesses and counterexamples -/

/-- Scenario-2 product: price 1000 cents USD, stock 5. -/
def productP : Product := ⟨"p1", "Widget", "", ⟨1000, "USD"⟩, ⟨5⟩⟩

/-- Scenario-2 basket: product p1, quantity 2, price snapshot 1000 USD. -/
def basketB : Basket := ⟨"b1", [⟨"p1", ⟨2⟩, ⟨1000, "USD"⟩⟩]⟩

/-- Scenario-2 store. -/
def storeS2 : Store := ⟨[productP], [basketB], []⟩

/-- Scenario-3 product: same as productP but stock 1. -/
def productLow : Product := ⟨"p1", "Widget", "", ⟨1000, "USD"⟩, ⟨1⟩⟩

/-- Scenario-3 store: stock 1 against requested quantity 2. -/
def storeS3 : Store := ⟨[productLow], [basketB], []⟩

/-- A USD product with ample stock. -/
def productUSD : Product := ⟨"p1", "A", "", ⟨100, "USD"⟩, ⟨5⟩⟩

/-- A EUR product with ample stock. -/
def productEUR : Product := ⟨"p2", "B", "", ⟨100, "EUR"⟩, ⟨5⟩⟩

/-- A basket holding one USD-priced and one EUR-priced item. -/
def basketMix : Basket :=
  ⟨"b1", [⟨"p1", ⟨1⟩, ⟨100, "USD"⟩⟩, ⟨"p2", ⟨1⟩, ⟨100, "EUR"⟩⟩]⟩

/-- Store with the two mixed-currency products and basketMix. -/
def storeMix : Store := ⟨[productUSD, productEUR], [basketMix], []⟩

/-! ## 64-bit wrap lemma -/

theorem wrap64_id {x : Int} (h1 : -i64Half ≤ x) (h2 : x < i64Half) :
    wrap64 x = x := by
  simp only [wrap64, i64Mod, i64Half] at *
  omega


/-! ## Association-list lemmas for the store -/

theorem findInList_key {α : Type} {key : α → String} {id : String} {l : List α} {x : α}
    (h : findInList key id l = some x) : key x = id := by
  induction l with
  | nil => simp [findInList] at h
  | cons y rest ih =>
    unfold findInList at h
    split at h
    · cases h; assumption
    · exact ih h

theorem findInList_mem {α : Type} {key : α → String} {id : String} {l : List α} {x : α}
    (h : findInList key id l = some x) : x ∈ l := by
  induction l with
  | nil => simp [findInList] at h
  | cons y rest ih =>
    unfold findInList at h
    split at h
    · cases h; exact List.mem_cons_self _ _
    · exact List.mem_cons_of_mem _ (ih h)

theorem updateInList_of_find {α : Type} {key : α → String} {id : String} {l : List α}
    {x e : α} (hf : findInList key id l = some x) (he : key e = id) :
    ∃ l', updateInList key e l = some l' := by
  induction l with
  | nil => simp [findInList] at hf
  | cons y rest ih =>
    unfold findInList at hf
    unfold updateInList
    split at hf
    case isTrue hy =>
      rw [if_pos (by rw [he, hy])]
      exact ⟨e :: rest, rfl⟩
    case isFalse hy =>
      obtain ⟨rest', hr⟩ := ih hf
      rw [if_neg (fun hc => hy (hc.trans he)), hr]
      exact ⟨y :: rest', rfl⟩

theorem findInList_update_self {α : Type} {key : α → String} {e : α} {l l' : List α}
    (h : updateInList key e l = some l') :
    findInList key (key e) l' = some e := by
  induction l generalizing l' with
  | nil => simp [updateInList] at h
  | cons y rest ih =>
    unfold updateInList at h
    split at h
    case isTrue hy =>
      cases h
      simp [findInList]
    case isFalse hy =>
      cases hu : updateInList key e rest with
      | none => rw [hu] at h; cases h
      | some rest' =>
        rw [hu] at h
        cases h
        unfold findInList
        rw [if_neg hy]
        exact ih hu

theorem findInList_update_other {α : Type} {key : α → String} {e : α} {l l' : List α}
    {id : String} (h : updateInList key e l = some l') (hid : id ≠ key e) :
    findInList key id l' = findInList key id l := by
  induction l generalizing l' with
  | nil => simp [updateInList] at h
  | cons y rest ih =>
    unfold updateInList at h
    split at h
    case isTrue hy =>
      cases h
      unfold findInList
      rw [if_neg (fun hc => hid hc.symm), if_neg (fun hc => hid (hy ▸ hc).symm)]
    case isFalse hy =>
      cases hu : updateInList key e rest with
      | none => rw [hu] at h; cases h
      | some rest' =>
        rw [hu] at h
        cases h
        unfold findInList
        by_cases hyid : key y = id
        · rw [if_pos hyid, if_pos hyid]
        · rw [if_neg hyid, if_neg hyid]
          exact ih hu

/-! ## Store-level lemmas -/

theorem findProduct_ok {st : Store} {id : String} {p : Product}
    (h : findProduct st id = .ok p) :
    findInList Product.id id st.products = some p := by
  unfold findProduct at h
  cases hf : findInList Product.id id st.products with
  | none => rw [hf] at h; cases h
  | some q => rw [hf] at h; cases h; rfl

theorem findProduct_of_list {st : Store} {id : String} {p : Product}
    (h : findInList Product.id id st.products = some p) :
    findProduct st id = .ok p := by
  unfold findProduct
  rw [h]

theorem findBasket_ok {st : Store} {id : String} {b : Basket}
    (h : findBasket st id = .ok b) :
    findInList Basket.id id st.baskets = some b := by
  unfold findBasket at h
  cases hf : findInList Basket.id id st.baskets with
  | none => rw [hf] at h; cases h
  | some q => rw [hf] at h; cases h; rfl

theorem updateProductStore_of_find {st : Store} {id : String} {x p : Product}
    (hf : findProduct st id = .ok x) (he : p.id = id) :
    ∃ st', updateProductStore st p = .ok st' ∧
      st'.baskets = st.baskets ∧ st'.orders = st.orders ∧
      updateInList Product.id p st.products = some st'.products := by
  obtain ⟨l', hl⟩ := updateInList_of_find (findProduct_ok hf) he
  exact ⟨{ st with products := l' }, by simp [updateProductStore, hl], rfl, rfl, by simp [hl]⟩

theorem findProduct_update_self {st st' : Store} {p : Product}
    (h : updateInList Product.id p st.products = some st'.products) :
    findProduct st' p.id = .ok p := by
  unfold findProduct
  rw [findInList_update_self h]

theorem findProduct_update_other {st st' : Store} {p : Product} {id : String}
    (h : updateInList Product.id p st.products = some st'.products)
    (hid : id ≠ p.id) :
    findProduct st' id = findProduct st id := by
  unfold findProduct
  rw [findInList_update_other h hid]

/-! ## Pre-check pass lemmas -/

theorem checkStock_ok_iff {st : Store} {items : List BasketItem} :
    checkStock st items = .ok () ↔
      ∀ it ∈ items, ∃ p, findProduct st it.productID = .ok p ∧
        ¬(p.stock.value < it.quantity.value) := by
  induction items with
  | nil => simp [checkStock]
  | cons item rest ih =>
    unfold checkStock
    cases hf : findProduct st item.productID with
    | error e =>
      simp only [List.mem_cons]
      constructor
      · intro h; cases h
      · intro h
        obtain ⟨p, hp, _⟩ := h item (Or.inl rfl)
        rw [hf] at hp; cases hp
    | ok product =>
      dsimp only
      by_cases hs : product.stock.value < item.quantity.value
      · rw [if_pos hs]
        simp only [List.mem_cons]
        constructor
        · intro h; cases h
        · intro h
          obtain ⟨p, hp, hple⟩ := h item (Or.inl rfl)
          rw [hf] at hp
          cases hp
          exact absurd hs hple
      · rw [if_neg hs]
        rw [ih]
        simp only [List.mem_cons]
        constructor
        · intro h it hit
          cases hit with
          | inl heq => exact heq ▸ ⟨product, hf, hs⟩
          | inr hmem => exact h it hmem
        · intro h it hit
          exact h it (Or.inr hit)

theorem checkStock_insufficient {st : Store} {items : List BasketItem}
    (hall : ∀ it ∈ items, ∃ p, findProduct st it.productID = .ok p)
    (hbad : ∃ it ∈ items, ∃ p, findProduct st it.productID = .ok p ∧
      p.stock.value < it.quantity.value) :
    ∃ name, checkStock st items = .error ("insufficient stock for product: " ++ name) := by
  induction items with
  | nil => obtain ⟨it, hit, _⟩ := hbad; cases hit
  | cons item rest ih =>
    obtain ⟨p0, hp0⟩ := hall item (List.mem_cons_self _ _)
    unfold checkStock
    rw [hp0]
    dsimp only
    by_cases hs : p0.stock.value < item.quantity.value
    · rw [if_pos hs]
      exact ⟨p0.name, rfl⟩
    · rw [if_neg hs]
      apply ih (fun it hit => hall it (List.mem_cons_of_mem _ hit))
      obtain ⟨it, hit, p, hp, hlt⟩ := hbad
      cases List.mem_cons.mp hit with
      | inl heq =>
        subst heq
        rw [hp0] at hp
        cases hp
        exact absurd hlt hs
      | inr hmem => exact ⟨it, hmem, p, hp, hlt⟩

/-! ## Reduction pass lemmas -/

theorem reduceAll_cons (st : Store) (item : BasketItem) (rest : List BasketItem) :
    reduceAll st (item :: rest) =
      match findProduct st item.productID with
      | .error e => .error e
      | .ok product =>
        match product.ReduceStock item.quantity with
        | .error e => .error e
        | .ok product' =>
          match updateProductStore st product' with
          | .error e => .error e
          | .ok st' => reduceAll st' rest := rfl

theorem reduceStock_ok {p : Product} {q : Quantity}
    (hq0 : 0 ≤ q.value) (hle : q.value ≤ p.stock.value) (hH : p.stock.value < i64Half) :
    p.ReduceStock q = .ok { p with stock := ⟨p.stock.value - q.value⟩ } := by
  have hwrap : wrap64 (p.stock.value - q.value) = p.stock.value - q.value := by
    apply wrap64_id
    · simp only [i64Half] at hH ⊢; omega
    · simp only [i64Half] at hH ⊢; omega
  have hsub : p.stock.Subtract q = .ok ⟨p.stock.value - q.value⟩ := by
    unfold Quantity.Subtract NewQuantity
    dsimp only
    rw [hwrap, if_neg (by omega), if_neg (by omega)]
  unfold Product.ReduceStock
  rw [hsub]

theorem reduceAll_spec {items : List BasketItem} :
    ∀ {st : Store},
    items.Pairwise (fun x y => x.productID ≠ y.productID) →
    (∀ it ∈ items, 0 ≤ it.quantity.value) →
    (∀ it ∈ items, ∃ p, findProduct st it.productID = .ok p ∧
        it.quantity.value ≤ p.stock.value ∧ p.stock.value < i64Half) →
    ∃ st', reduceAll st items = .ok st' ∧
      st'.baskets = st.baskets ∧ st'.orders = st.orders ∧
      (∀ id, (∀ it ∈ items, it.productID ≠ id) → findProduct st' id = findProduct st id) ∧
      (∀ it ∈ items, ∃ p, findProduct st it.productID = .ok p ∧
          findProduct st' it.productID =
            .ok { p with stock := ⟨p.stock.value - it.quantity.value⟩ }) := by
  induction items with
  | nil =>
    intro st _ _ _
    exact ⟨st, rfl, rfl, rfl, fun id _ => rfl, fun it hit => absurd hit (List.not_mem_nil _)⟩
  | cons item rest ih =>
    intro st hdist hqty hok
    obtain ⟨hhead, htail⟩ := List.pairwise_cons.mp hdist
    obtain ⟨p, hp, hle, hH⟩ := hok item (List.mem_cons_self _ _)
    have hq0 : 0 ≤ item.quantity.value := hqty item (List.mem_cons_self _ _)
    have hkey : p.id = item.productID := findInList_key (findProduct_ok hp)
    have hred : p.ReduceStock item.quantity =
        .ok { p with stock := ⟨p.stock.value - item.quantity.value⟩ } :=
      reduceStock_ok hq0 hle hH
    obtain ⟨st1, hup1, hbk1, hor1, hlist1⟩ :=
      @updateProductStore_of_find st item.productID p
        { p with stock := ⟨p.stock.value - item.quantity.value⟩ } hp hkey
    have hself : findProduct st1 item.productID =
        .ok { p with stock := ⟨p.stock.value - item.quantity.value⟩ } := by
      have := findProduct_update_self hlist1
      simpa [hkey] using this
    have hother : ∀ id, id ≠ item.productID → findProduct st1 id = findProduct st id := by
      intro id hid
      exact findProduct_update_other hlist1 (by simpa [hkey] using hid)
    have hok1 : ∀ it ∈ rest, ∃ q, findProduct st1 it.productID = .ok q ∧
        it.quantity.value ≤ q.stock.value ∧ q.stock.value < i64Half := by
      intro it hit
      obtain ⟨q, hq, hle', hH'⟩ := hok it (List.mem_cons_of_mem _ hit)
      exact ⟨q, by rw [hother it.productID (hhead it hit).symm]; exact hq, hle', hH'⟩
    obtain ⟨st2, hrun, hbk2, hor2, hframe2, hitems2⟩ :=
      ih htail (fun it hit => hqty it (List.mem_cons_of_mem _ hit)) hok1
    refine ⟨st2, ?_, hbk2.trans hbk1, hor2.trans hor1, ?_, ?_⟩
    · rw [reduceAll_cons, hp]
      dsimp only
      rw [hred]
      dsimp only
      rw [hup1]
      dsimp only
      exact hrun
    · intro id hall
      rw [hframe2 id (fun it hit => hall it (List.mem_cons_of_mem _ hit))]
      exact hother id (Ne.symm (hall item (List.mem_cons_self _ _)))
    · intro it hit
      cases List.mem_cons.mp hit with
      | inl heq =>
        subst heq
        refine ⟨p, hp, ?_⟩
        rw [hframe2 it.productID (fun it' hit' => (hhead it' hit').symm)]
        exact hself
      | inr hmem =>
        obtain ⟨q, hq, hq'⟩ := hitems2 it hmem
        refine ⟨q, ?_, hq'⟩
        rw [← hother it.productID (hhead it hmem).symm]
        exact hq

/-! ## Money arithmetic lemmas -/

theorem Money.Add_ok {m other : Money}
    (hc : m.currency = other.currency) (hne : m.currency ≠ "")
    (h1 : 0 ≤ m.amount) (h2 : 0 ≤ other.amount)
    (hsum : m.amount + other.amount < i64Half) :
    m.Add other = .ok ⟨m.amount + other.amount, m.currency⟩ := by
  unfold Money.Add NewMoney
  rw [if_neg (by simp [hc])]
  rw [wrap64_id (by simp only [i64Half]; omega) hsum]
  rw [if_neg (by omega), if_neg hne]

theorem Money.Multiply_ok {m : Money} {q : Int}
    (hq : 0 ≤ q) (ha : 0 ≤ m.amount) (hne : m.currency ≠ "")
    (hbound : m.amount * q < i64Half) :
    m.Multiply q = .ok ⟨m.amount * q, m.currency⟩ := by
  have hprod : 0 ≤ m.amount * q := mul_nonneg ha hq
  unfold Money.Multiply NewMoney
  rw [if_neg (by omega)]
  rw [wrap64_id (by simp only [i64Half]; omega) hbound]
  rw [if_neg (by omega), if_neg hne]

/-! ## Subtotal summation lemmas -/

theorem subtotalSum_nonneg {items : List BasketItem}
    (h : ∀ it ∈ items, 0 ≤ it.price.amount ∧ 0 ≤ it.quantity.value) :
    0 ≤ subtotalSum items := by
  induction items with
  | nil => simp [subtotalSum]
  | cons it rest ih =>
    have ⟨ha, hq⟩ := h it (List.mem_cons_self _ _)
    have := ih (fun x hx => h x (List.mem_cons_of_mem _ hx))
    have := mul_nonneg ha hq
    unfold subtotalSum
    omega

theorem sumBasketSubtotals_ok {c : String} (hc : c ≠ "") :
    ∀ (items : List BasketItem) (total : Money),
    total.currency = c → 0 ≤ total.amount →
    (∀ it ∈ items, it.price.currency = c ∧ 0 ≤ it.price.amount ∧ 0 ≤ it.quantity.value) →
    total.amount + subtotalSum items < i64Half →
    sumBasketSubtotals total items = .ok ⟨total.amount + subtotalSum items, c⟩ := by
  intro items
  induction items with
  | nil =>
    intro total hcur h0 _ _
    unfold sumBasketSubtotals subtotalSum
    cases total
    simp_all
  | cons it rest ih =>
    intro total hcur h0 hval hbound
    obtain ⟨hcur', ha, hq⟩ := hval it (List.mem_cons_self _ _)
    have hrest : ∀ x ∈ rest, x.price.currency = c ∧ 0 ≤ x.price.amount ∧ 0 ≤ x.quantity.value :=
      fun x hx => hval x (List.mem_cons_of_mem _ hx)
    have hrest0 : 0 ≤ subtotalSum rest :=
      subtotalSum_nonneg (fun x hx => ⟨(hrest x hx).2.1, (hrest x hx).2.2⟩)
    have hit0 : 0 ≤ it.price.amount * it.quantity.value := mul_nonneg ha hq
    have hsum : subtotalSum (it :: rest) =
        it.price.amount * it.quantity.value + subtotalSum rest := rfl
    have hmul : it.price.Multiply it.quantity.value =
        .ok ⟨it.price.amount * it.quantity.value, it.price.currency⟩ := by
      apply Money.Multiply_ok hq ha (hcur' ▸ hc)
      omega
    unfold sumBasketSubtotals BasketItem.Subtotal
    rw [hmul]
    dsimp only
    have hadd : total.Add ⟨it.price.amount * it.quantity.value, it.price.currency⟩ =
        .ok ⟨total.amount + it.price.amount * it.quantity.value, total.currency⟩ := by
      apply Money.Add_ok (by rw [hcur, hcur']) (by rw [hcur]; exact hc) h0 hit0
      dsimp only
      omega
    rw [hadd]
    dsimp only
    rw [ih ⟨total.amount + it.price.amount * it.quantity.value, total.currency⟩ hcur
      (by dsimp only; omega) hrest (by dsimp only; omega)]
    congr 2
    dsimp only
    omega

theorem sumBasketSubtotals_mismatch {c : String} (hc : c ≠ "") :
    ∀ (items : List BasketItem) (total : Money),
    total.currency = c → 0 ≤ total.amount →
    (∀ it ∈ items, it.price.currency ≠ "" ∧ 0 ≤ it.price.amount ∧ 0 ≤ it.quantity.value) →
    total.amount + subtotalSum items < i64Half →
    (∃ it ∈ items, it.price.currency ≠ c) →
    sumBasketSubtotals total items = .error "cannot add money with different currencies" := by
  intro items
  induction items with
  | nil =>
    intro _ _ _ _ _ hex
    obtain ⟨it, hit, _⟩ := hex
    cases hit
  | cons it rest ih =>
    intro total hcur h0 hval hbound hex
    obtain ⟨hne', ha, hq⟩ := hval it (List.mem_cons_self _ _)
    have hrest : ∀ x ∈ rest, x.price.currency ≠ "" ∧ 0 ≤ x.price.amount ∧ 0 ≤ x.quantity.value :=
      fun x hx => hval x (List.mem_cons_of_mem _ hx)
    have hrest0 : 0 ≤ subtotalSum rest :=
      subtotalSum_nonneg (fun x hx => ⟨(hrest x hx).2.1, (hrest x hx).2.2⟩)
    have hit0 : 0 ≤ it.price.amount * it.quantity.value := mul_nonneg ha hq
    have hsum : subtotalSum (it :: rest) =
        it.price.amount * it.quantity.value + subtotalSum rest := rfl
    have hmul : it.price.Multiply it.quantity.value =
        .ok ⟨it.price.amount * it.quantity.value, it.price.currency⟩ := by
      apply Money.Multiply_ok hq ha hne'
      omega
    unfold sumBasketSubtotals BasketItem.Subtotal
    rw [hmul]
    dsimp only
    by_cases hmatch : it.price.currency = c
    · have hadd : total.Add ⟨it.price.amount * it.quantity.value, it.price.currency⟩ =
          .ok ⟨total.amount + it.price.amount * it.quantity.value, total.currency⟩ := by
        apply Money.Add_ok (by rw [hcur, hmatch]) (by rw [hcur]; exact hc) h0 hit0
        dsimp only
        omega
      rw [hadd]
      dsimp only
      apply ih ⟨total.amount + it.price.amount * it.quantity.value, total.currency⟩ hcur
        (by dsimp only; omega) hrest (by dsimp only; omega)
      obtain ⟨x, hx, hxc⟩ := hex
      cases List.mem_cons.mp hx with
      | inl heq => exact absurd (heq ▸ hmatch) hxc
      | inr hmem => exact ⟨x, hmem, hxc⟩
    · have : total.Add ⟨it.price.amount * it.quantity.value, it.price.currency⟩ =
          .error "cannot add money with different currencies" := by
        unfold Money.Add
        rw [if_pos (by dsimp only; rw [hcur]; exact fun hcc => hmatch hcc.symm)]
      rw [this]

/-! ## Order construction lemmas -/

theorem toOrderItems_ok {items : List BasketItem}
    (h : ∀ it ∈ items, it.productID ≠ "" ∧ it.quantity.value ≠ 0) :
    ∃ ois, toOrderItems items = .ok ois ∧
      ∀ total, sumOrderSubtotals total ois = sumBasketSubtotals total items := by
  induction items with
  | nil => exact ⟨[], rfl, fun _ => rfl⟩
  | cons bi rest ih =>
    obtain ⟨hpid, hqz⟩ := h bi (List.mem_cons_self _ _)
    obtain ⟨ois, hois, hfold⟩ := ih (fun x hx => h x (List.mem_cons_of_mem _ hx))
    have hoi : NewOrderItem bi.productID bi.quantity bi.price =
        .ok ⟨bi.productID, bi.quantity, bi.price⟩ := by
      unfold NewOrderItem
      rw [if_neg hpid, if_neg (by simp [Quantity.IsZero, hqz])]
    refine ⟨⟨bi.productID, bi.quantity, bi.price⟩ :: ois, ?_, ?_⟩
    · unfold toOrderItems
      rw [hoi]
      dsimp only
      rw [hois]
    · intro total
      unfold sumOrderSubtotals sumBasketSubtotals OrderItem.Subtotal BasketItem.Subtotal
      dsimp only
      cases bi.price.Multiply bi.quantity.value with
      | error e => rfl
      | ok sub =>
        dsimp only
        cases total.Add sub with
        | error e => rfl
        | ok total' => exact hfold total'

theorem NewOrder_of_total {b : Basket} {first : BasketItem} {rest : List BasketItem}
    {t : Money} (oid : String) (hitems : b.items = first :: rest)
    (hwf : ∀ it ∈ b.items, it.productID ≠ "" ∧ it.quantity.value ≠ 0)
    (htot : b.Total = .ok t) :
    ∃ ois, NewOrder b.items oid = .ok ⟨oid, ois, t, .pending⟩ := by
  unfold Basket.Total at htot
  rw [hitems] at htot
  dsimp only at htot
  rw [hitems] at hwf
  cases hz : NewMoney 0 first.price.currency with
  | error e => rw [hz] at htot; cases htot
  | ok zero =>
    rw [hz] at htot
    dsimp only at htot
    obtain ⟨ois, hois, hfold⟩ := toOrderItems_ok hwf
    refine ⟨ois, ?_⟩
    rw [hitems]
    unfold NewOrder
    rw [hois]
    dsimp only
    rw [hz]
    dsimp only
    rw [hfold zero, htot]

/-! ## Basket-store lemmas -/

theorem findBasket_baskets_eq {st st' : Store} (h : st'.baskets = st.baskets)
    (id : String) : findBasket st' id = findBasket st id := by
  unfold findBasket
  rw [h]

theorem findProduct_products_eq {st st' : Store} (h : st'.products = st.products)
    (id : String) : findProduct st' id = findProduct st id := by
  unfold findProduct
  rw [h]

theorem updateBasketStore_of_find {st : Store} {id : String} {x b : Basket}
    (hf : findBasket st id = .ok x) (he : b.id = id) :
    ∃ st', updateBasketStore st b = .ok st' ∧
      st'.products = st.products ∧ st'.orders = st.orders ∧
      updateInList Basket.id b st.baskets = some st'.baskets := by
  obtain ⟨l', hl⟩ := updateInList_of_find (findBasket_ok hf) he
  exact ⟨{ st with baskets := l' }, by simp [updateBasketStore, hl], rfl, rfl, by simp [hl]⟩

/-- C1 (amended): for every basket stored under a non-empty id that is
non-empty, whose items have pairwise-distinct non-empty product ids and
positive quantities, whose Total() computation succeeds (which rules out
mixed currencies and int64 overflow of the total), and whose items all
reference existing products with int64-valid stock at least the requested
quantity (the stock pre-check passes), CreateOrder succeeds and returns an
order with status PENDING whose total equals the basket's total; each
referenced product's stock in the returned store is decremented by exactly
the requested quantity; and the basket stored under that id is empty
afterwards. Without the non-emptiness / same-currency conditions the
original claim fails, see the mixed-currency counterexample. -/
theorem createOrder_checkout_success
    {st : Store} {bid oid : String} {b : Basket} {first : BasketItem}
    {rest : List BasketItem} {t : Money}
    (hbid : bid ≠ "")
    (hfind : findBasket st bid = .ok b)
    (hitems : b.items = first :: rest)
    (hdist : b.items.Pairwise (fun x y => x.productID ≠ y.productID))
    (hwf : ∀ it ∈ b.items, it.productID ≠ "" ∧ 0 < it.quantity.value)
    (hbound : ∀ p ∈ st.products, p.stock.value < i64Half)
    (hchk : checkStock st b.items = .ok ())
    (htot : b.Total = .ok t) :
    ∃ ois st', CreateOrder st bid oid = .ok (⟨oid, ois, t, .pending⟩, st') ∧
      (∀ it ∈ b.items, ∃ p, findProduct st it.productID = .ok p ∧
        findProduct st' it.productID =
          .ok { p with stock := ⟨p.stock.value - it.quantity.value⟩ }) ∧
      findBasket st' bid = .ok b.Clear ∧ (b.Clear).IsEmpty = true := by
  have hok : ∀ it ∈ b.items, ∃ p, findProduct st it.productID = .ok p ∧
      it.quantity.value ≤ p.stock.value ∧ p.stock.value < i64Half := by
    intro it hit
    obtain ⟨p, hp, hnl⟩ := (checkStock_ok_iff.mp hchk) it hit
    exact ⟨p, hp, by omega, hbound p (findInList_mem (findProduct_ok hp))⟩
  obtain ⟨st1, hrun, hbk1, hor1, hframe1, hitems1⟩ :=
    reduceAll_spec hdist (fun it hit => le_of_lt (hwf it hit).2) hok
  obtain ⟨ois, hord⟩ := NewOrder_of_total oid hitems
    (fun it hit => ⟨(hwf it hit).1, by have := (hwf it hit).2; omega⟩) htot
  have hkey : b.id = bid := findInList_key (findBasket_ok hfind)
  have hfb2 : findBasket (saveOrderStore st1 ⟨oid, ois, t, .pending⟩) bid = .ok b := by
    have hbs : (saveOrderStore st1 ⟨oid, ois, t, .pending⟩).baskets = st.baskets := by
      rw [show (saveOrderStore st1 ⟨oid, ois, t, .pending⟩).baskets = st1.baskets from rfl, hbk1]
    rw [findBasket_baskets_eq hbs]
    exact hfind
  obtain ⟨st3, hub, hpr3, hor3, hblist⟩ :=
    updateBasketStore_of_find hfb2 (show (Basket.Clear b).id = bid from hkey)
  refine ⟨ois, st3, ?_, ?_, ?_, rfl⟩
  · unfold CreateOrder
    rw [if_neg hbid, hfind]
    dsimp only
    rw [if_neg (by simp [Basket.IsEmpty, hitems]), hchk]
    dsimp only
    rw [hrun]
    dsimp only
    rw [hord]
    dsimp only
    rw [hub]
  · intro it hit
    obtain ⟨p, hp, hp'⟩ := hitems1 it hit
    refine ⟨p, hp, ?_⟩
    have hpr : st3.products = st1.products := by
      rw [hpr3]
      rfl
    rw [findProduct_products_eq hpr]
    exact hp'
  · have hself := findInList_update_self hblist
    have hcid : Basket.id (Basket.Clear b) = bid := hkey
    rw [hcid] at hself
    unfold findBasket
    rw [hself]

theorem Money.Add_overflow {m other : Money}
    (hc : m.currency = other.currency)
    (h1 : 0 ≤ m.amount) (h2 : 0 ≤ other.amount)
    (h1H : m.amount < i64Half) (h2H : other.amount < i64Half)
    (hsum : i64Half ≤ m.amount + other.amount) :
    m.Add other = .error "amount cannot be negative" := by
  unfold Money.Add NewMoney
  rw [if_neg (by simp [hc])]
  have hw : wrap64 (m.amount + other.amount) = m.amount + other.amount - i64Mod := by
    simp only [wrap64, i64Half, i64Mod] at *
    omega
  rw [hw, if_pos (by simp only [i64Half, i64Mod] at *; omega)]

/-! ## Claim theorems -/

/-- C3: for valid same-currency Money values, Money.Add is commutative and
associative (as Except-valued computations, composed with Except.bind); for
any pair with differing currencies it fails with the currency-mismatch
error and returns no Money value. -/
theorem money_add_comm_assoc_mismatch :
    (∀ a b : Money, a.Valid → b.Valid → a.currency = b.currency →
      a.Add b = b.Add a) ∧
    (∀ a b c : Money, a.Valid → b.Valid → c.Valid →
      a.currency = b.currency → b.currency = c.currency →
      (a.Add b).bind (fun m => m.Add c) = (b.Add c).bind (fun m => a.Add m)) ∧
    (∀ a b : Money, a.currency ≠ b.currency →
      a.Add b = .error "cannot add money with different currencies") := by
  refine ⟨?_, ?_, ?_⟩
  · intro a b _ _ hc
    unfold Money.Add
    rw [hc, Int.add_comm]
  · intro a b c ha hb hc hab hbc
    obtain ⟨ha0, haH, hane⟩ := ha
    obtain ⟨hb0, hbH, _⟩ := hb
    obtain ⟨hc0, hcH, _⟩ := hc
    have hbne : b.currency ≠ "" := hab ▸ hane
    by_cases hab' : a.amount + b.amount < i64Half
    · rw [Money.Add_ok hab hane ha0 hb0 hab']
      by_cases htot : a.amount + b.amount + c.amount < i64Half
      · have hbc' : b.amount + c.amount < i64Half := by
          simp only [i64Half] at *; omega
        rw [Money.Add_ok hbc hbne hb0 hc0 hbc']
        simp only [Except.bind]
        rw [Money.Add_ok (by dsimp only; rw [hab, hbc]) (by dsimp only; exact hane)
          (by dsimp only; omega) hc0 (by dsimp only; omega)]
        rw [Money.Add_ok (by dsimp only; rw [hab]) hane ha0 (by dsimp only; omega)
          (by dsimp only; simp only [i64Half] at *; omega)]
        simp only [Except.ok.injEq, Money.mk.injEq]
        constructor
        · omega
        · trivial
      · by_cases hbc' : b.amount + c.amount < i64Half
        · rw [Money.Add_ok hbc hbne hb0 hc0 hbc']
          simp only [Except.bind]
          rw [Money.Add_overflow (by dsimp only; rw [hab, hbc]) (by dsimp only; omega)
            hc0 hab' hcH (by dsimp only; simp only [i64Half] at *; omega)]
          rw [Money.Add_overflow (by dsimp only; rw [hab]) ha0 (by dsimp only; omega)
            haH hbc' (by dsimp only; simp only [i64Half] at *; omega)]
        · rw [Money.Add_overflow hbc hb0 hc0 hbH hcH (by simp only [i64Half] at *; omega)]
          simp only [Except.bind]
          rw [Money.Add_overflow (by dsimp only; rw [hab, hbc]) (by dsimp only; omega)
            hc0 hab' hcH (by dsimp only; simp only [i64Half] at *; omega)]
    · rw [Money.Add_overflow hab ha0 hb0 haH hbH (by simp only [i64Half] at *; omega)]
      by_cases hbc' : b.amount + c.amount < i64Half
      · rw [Money.Add_ok hbc hbne hb0 hc0 hbc']
        simp only [Except.bind]
        rw [Money.Add_overflow (by rw [hab]) ha0 (by dsimp only; omega) haH hbc'
          (by dsimp only; simp only [i64Half] at *; omega)]
      · rw [Money.Add_overflow hbc hb0 hc0 hbH hcH (by simp only [i64Half] at *; omega)]
        simp only [Except.bind]
  · intro a b hne
    unfold Money.Add
    rw [if_pos hne]

/-- C3 witness: commutativity at 100 USD + 250 USD, and the mismatch
failure at 100 USD + 100 EUR (spec scenario 5). -/
theorem money_add_comm_assoc_mismatch_witness :
    Money.Add ⟨100, "USD"⟩ ⟨250, "USD"⟩ = Money.Add ⟨250, "USD"⟩ ⟨100, "USD"⟩ ∧
    (Money.Add ⟨100, "USD"⟩ ⟨250, "USD"⟩).bind (fun m => m.Add ⟨37, "USD"⟩) =
      (Money.Add ⟨250, "USD"⟩ ⟨37, "USD"⟩).bind (fun m => Money.Add ⟨100, "USD"⟩ m) ∧
    Money.Add ⟨100, "USD"⟩ ⟨100, "EUR"⟩ = .error "cannot add money with different currencies" :=
  ⟨money_add_comm_assoc_mismatch.1 ⟨100, "USD"⟩ ⟨250, "USD"⟩ (by decide) (by decide) rfl,
   money_add_comm_assoc_mismatch.2.1 ⟨100, "USD"⟩ ⟨250, "USD"⟩ ⟨37, "USD"⟩
     (by decide) (by decide) (by decide) rfl rfl,
   money_add_comm_assoc_mismatch.2.2 ⟨100, "USD"⟩ ⟨100, "EUR"⟩ (by decide)⟩

/-- C4 counterexample: at the valid Money of 2^62 cents USD and the
non-negative factor 2, Multiply does not succeed (the int64 product 2^63
wraps negative), refuting "for every valid Money m and every n ≥ 0,
m.Multiply(n) succeeds". -/
theorem money_multiply_overflow_counterexample :
    Money.Valid ⟨4611686018427387904, "USD"⟩ ∧ (0 : Int) ≤ 2 ∧
    Money.Multiply ⟨4611686018427387904, "USD"⟩ 2 = .error "amount cannot be negative" :=
  ⟨by decide, by decide, by rfl⟩

theorem addNTimes_ok {m : Money} (hm : m.Valid) :
    ∀ k : Nat, m.amount * (k : Int) < i64Half →
    addNTimes m k = .ok ⟨m.amount * (k : Int), m.currency⟩ := by
  obtain ⟨h0, hH, hne⟩ := hm
  intro k
  induction k with
  | zero =>
    intro _
    unfold addNTimes NewMoney
    rw [if_neg (by omega), if_neg hne]
    simp
  | succ n ih =>
    intro hbound
    have hcast : ((n + 1 : Nat) : Int) = (n : Int) + 1 := by push_cast; ring
    rw [hcast] at hbound ⊢
    have hexp : m.amount * ((n : Int) + 1) = m.amount * (n : Int) + m.amount := by ring
    rw [hexp] at hbound ⊢
    have hn0 : 0 ≤ m.amount * (n : Int) := mul_nonneg h0 (by positivity)
    have hn : m.amount * (n : Int) < i64Half := by omega
    have hrec := ih hn
    show (match addNTimes m n with
          | Except.error e => Except.error e
          | Except.ok acc => acc.Add m) =
        Except.ok ⟨m.amount * (n : Int) + m.amount, m.currency⟩
    rw [hrec]
    dsimp only
    exact Money.Add_ok rfl hne hn0 h0 (by dsimp only; omega)

/-- C4 (amended): for every valid Money m and integer n ≥ 0 such that the
exact product amount*n stays within int64 (below 2^63), Multiply succeeds
with exactly amount*n and equals adding m to the zero Money of m's currency
n times; for every negative n, Multiply fails. Without the bound the claim
fails by money_multiply_overflow_counterexample. -/
theorem money_multiply_eq_repeated_add :
    (∀ (m : Money) (n : Int), m.Valid → 0 ≤ n → m.amount * n < i64Half →
      m.Multiply n = .ok ⟨m.amount * n, m.currency⟩ ∧
      addNTimes m n.toNat = .ok ⟨m.amount * n, m.currency⟩) ∧
    (∀ (m : Money) (n : Int), n < 0 →
      m.Multiply n = .error "quantity cannot be negative") := by
  constructor
  · intro m n hm hn hbound
    obtain ⟨h0, hH, hne⟩ := hm
    refine ⟨Money.Multiply_ok hn h0 hne hbound, ?_⟩
    have hcast : ((n.toNat : Nat) : Int) = n := Int.toNat_of_nonneg hn
    have h := addNTimes_ok ⟨h0, hH, hne⟩ n.toNat (by rw [hcast]; exact hbound)
    rw [hcast] at h
    exact h
  · intro m n hn
    unfold Money.Multiply
    rw [if_pos hn]

/-- C4 witness: 100 USD times 3 equals 300 USD and equals three repeated
additions; multiplying by -1 fails. -/
theorem money_multiply_eq_repeated_add_witness :
    Money.Multiply ⟨100, "USD"⟩ 3 = .ok ⟨300, "USD"⟩ ∧
    addNTimes ⟨100, "USD"⟩ 3 = .ok ⟨300, "USD"⟩ ∧
    Money.Multiply ⟨100, "USD"⟩ (-1) = .error "quantity cannot be negative" :=
  ⟨(money_multiply_eq_repeated_add.1 ⟨100, "USD"⟩ 3 (by decide) (by decide) (by decide)).1,
   (money_multiply_eq_repeated_add.1 ⟨100, "USD"⟩ 3 (by decide) (by decide) (by decide)).2,
   money_multiply_eq_repeated_add.2 ⟨100, "USD"⟩ (-1) (by decide)⟩

/-- C5: for every product and quantity within the int64 value range,
ReduceStock fails with the insufficient-stock error when the requested
quantity exceeds the current stock (returning no product, so the caller's
product keeps its stock), and otherwise succeeds with the stock reduced by
exactly the requested quantity and every other field unchanged. -/
theorem product_reduceStock_spec (p : Product) (q : Quantity)
    (hp0 : 0 ≤ p.stock.value) (hpH : p.stock.value < i64Half)
    (hq0 : 0 ≤ q.value) (hqH : q.value < i64Half) :
    (p.stock.value < q.value → p.ReduceStock q = .error "insufficient stock") ∧
    (q.value ≤ p.stock.value →
      p.ReduceStock q = .ok { p with stock := ⟨p.stock.value - q.value⟩ }) := by
  constructor
  · intro hlt
    have hwrap : wrap64 (p.stock.value - q.value) = p.stock.value - q.value := by
      apply wrap64_id <;> simp only [i64Half] at * <;> omega
    unfold Product.ReduceStock Quantity.Subtract
    dsimp only
    rw [hwrap, if_pos (by omega)]
  · intro hle
    exact reduceStock_ok hq0 hle hpH

/-- C5 witness: stock 5 reduced by 2 gives stock 3; stock 1 reduced by 2
fails with the insufficient-stock error. -/
theorem product_reduceStock_spec_witness :
    Product.ReduceStock productP ⟨2⟩ = .ok { productP with stock := ⟨3⟩ } ∧
    Product.ReduceStock productLow ⟨2⟩ = .error "insufficient stock" :=
  ⟨(product_reduceStock_spec productP ⟨2⟩ (by decide) (by decide) (by decide) (by decide)).2
     (by decide),
   (product_reduceStock_spec productLow ⟨2⟩ (by decide) (by decide) (by decide) (by decide)).1
     (by decide)⟩

/-- C6: Confirm succeeds exactly from PENDING (and then only sets the
status to CONFIRMED), Ship exactly from CONFIRMED, Deliver exactly from
SHIPPED, and Cancel from every status except DELIVERED and CANCELLED; a
failed transition returns an error and no order, so the caller's order
keeps its status. -/
theorem order_status_transitions (o : Order) :
    ((∃ o', o.Confirm = .ok o') ↔ o.status = .pending) ∧
    (∀ o', o.Confirm = .ok o' → o' = { o with status := .confirmed }) ∧
    ((∃ o', o.Ship = .ok o') ↔ o.status = .confirmed) ∧
    (∀ o', o.Ship = .ok o' → o' = { o with status := .shipped }) ∧
    ((∃ o', o.Deliver = .ok o') ↔ o.status = .shipped) ∧
    (∀ o', o.Deliver = .ok o' → o' = { o with status := .delivered }) ∧
    ((∃ o', o.Cancel = .ok o') ↔ (o.status ≠ .delivered ∧ o.status ≠ .cancelled)) ∧
    (∀ o', o.Cancel = .ok o' → o' = { o with status := .cancelled }) := by
  unfold Order.Confirm Order.Ship Order.Deliver Order.Cancel
  refine ⟨⟨?_, ?_⟩, ?_, ⟨?_, ?_⟩, ?_, ⟨?_, ?_⟩, ?_, ⟨?_, ?_⟩, ?_⟩
  · rintro ⟨o', ho'⟩
    by_contra hne
    rw [if_pos hne] at ho'
    cases ho'
  · intro h
    exact ⟨_, by rw [if_neg (by simp [h])]⟩
  · intro o' h
    by_cases hp : o.status = .pending
    · rw [if_neg (by simp [hp])] at h
      cases h
      rfl
    · rw [if_pos hp] at h
      cases h
  · rintro ⟨o', ho'⟩
    by_contra hne
    rw [if_pos hne] at ho'
    cases ho'
  · intro h
    exact ⟨_, by rw [if_neg (by simp [h])]⟩
  · intro o' h
    by_cases hp : o.status = .confirmed
    · rw [if_neg (by simp [hp])] at h
      cases h
      rfl
    · rw [if_pos hp] at h
      cases h
  · rintro ⟨o', ho'⟩
    by_contra hne
    rw [if_pos hne] at ho'
    cases ho'
  · intro h
    exact ⟨_, by rw [if_neg (by simp [h])]⟩
  · intro o' h
    by_cases hp : o.status = .shipped
    · rw [if_neg (by simp [hp])] at h
      cases h
      rfl
    · rw [if_pos hp] at h
      cases h
  · rintro ⟨o', ho'⟩
    by_cases hd : o.status = .delivered
    · rw [if_pos hd] at ho'
      cases ho'
    · rw [if_neg hd] at ho'
      by_cases hc : o.status = .cancelled
      · rw [if_pos hc] at ho'
        cases ho'
      · exact ⟨hd, hc⟩
  · rintro ⟨hd, hc⟩
    exact ⟨_, by rw [if_neg hd, if_neg hc]⟩
  · intro o' h
    by_cases hd : o.status = .delivered
    · rw [if_pos hd] at h
      cases h
    · rw [if_neg hd] at h
      by_cases hc : o.status = .cancelled
      · rw [if_pos hc] at h
        cases h
      · rw [if_neg hc] at h
        cases h
        rfl

/-- C6 witness: a pending order can be confirmed; a delivered order cannot
be cancelled. -/
theorem order_status_transitions_witness :
    (∃ o', Order.Confirm ⟨"o1", [], ⟨0, "USD"⟩, .pending⟩ = .ok o') ∧
    ¬∃ o', Order.Cancel ⟨"o1", [], ⟨0, "USD"⟩, .delivered⟩ = .ok o' :=
  ⟨(order_status_transitions ⟨"o1", [], ⟨0, "USD"⟩, .pending⟩).1.mpr rfl,
   fun h =>
    (((order_status_transitions ⟨"o1", [], ⟨0, "USD"⟩, .delivered⟩).2.2.2.2.2.2.1.mp h).1 rfl)⟩

/-- C2: for a stored, non-empty basket (under a non-empty id) all of whose
items reference existing products, if some item's product has stock
strictly below the requested quantity, CreateOrder fails with the
insufficient-stock error. The failure is the read-only pre-check pass's
(checkStock takes the store and returns no store), which runs over the
items before the mutation pass, and CreateOrder returns no store, so no
product stock is altered and the basket is unchanged. -/
theorem createOrder_insufficient_stock
    {st : Store} {bid : String} (oid : String) {b : Basket}
    (hbid : bid ≠ "")
    (hfind : findBasket st bid = .ok b)
    (hall : ∀ it ∈ b.items, ∃ p, findProduct st it.productID = .ok p)
    (hbad : ∃ it ∈ b.items, ∃ p, findProduct st it.productID = .ok p ∧
      p.stock.value < it.quantity.value) :
    ∃ name, checkStock st b.items = .error ("insufficient stock for product: " ++ name) ∧
      CreateOrder st bid oid = .error ("insufficient stock for product: " ++ name) := by
  obtain ⟨name, hcs⟩ := checkStock_insufficient hall hbad
  refine ⟨name, hcs, ?_⟩
  obtain ⟨it0, hit0, _⟩ := hbad
  have hne : b.items ≠ [] := List.ne_nil_of_mem hit0
  have hemp : b.IsEmpty = false := by
    unfold Basket.IsEmpty
    cases hbi : b.items with
    | nil => exact absurd hbi hne
    | cons x xs => rw [List.isEmpty_cons]
  unfold CreateOrder
  rw [if_neg hbid, hfind]
  dsimp only
  rw [if_neg (by simp [hemp]), hcs]

/-- C2 witness: spec scenario 3, a basket requesting quantity 2 of a
product with stock 1. -/
theorem createOrder_insufficient_stock_witness :
    ∃ name,
      checkStock storeS3 basketB.items =
        .error ("insufficient stock for product: " ++ name) ∧
      CreateOrder storeS3 "b1" "o1" =
        .error ("insufficient stock for product: " ++ name) :=
  createOrder_insufficient_stock "o1" (by decide) rfl
    (by
      intro it hit
      simp only [basketB, List.mem_singleton] at hit
      subst hit
      exact ⟨productLow, rfl⟩)
    ⟨⟨"p1", ⟨2⟩, ⟨1000, "USD"⟩⟩, by simp [basketB], productLow, rfl, by decide⟩

/-- C9: in the sequential storage model, for items with pairwise-distinct
product ids and int64-valid quantities and stocks, if the read-only stock
pre-check pass succeeds, then the whole stock-reduction pass succeeds: no
ReduceStock call in it can fail. -/
theorem precheck_implies_reduce_succeeds
    {st : Store} {items : List BasketItem}
    (hdist : items.Pairwise (fun x y => x.productID ≠ y.productID))
    (hqty : ∀ it ∈ items, 0 ≤ it.quantity.value)
    (hbound : ∀ p ∈ st.products, p.stock.value < i64Half)
    (hchk : checkStock st items = .ok ()) :
    ∃ st', reduceAll st items = .ok st' := by
  have hok : ∀ it ∈ items, ∃ p, findProduct st it.productID = .ok p ∧
      it.quantity.value ≤ p.stock.value ∧ p.stock.value < i64Half := by
    intro it hit
    obtain ⟨p, hp, hnl⟩ := (checkStock_ok_iff.mp hchk) it hit
    exact ⟨p, hp, by omega, hbound p (findInList_mem (findProduct_ok hp))⟩
  obtain ⟨st', hrun, _⟩ := reduceAll_spec hdist hqty hok
  exact ⟨st', hrun⟩

/-- C9 witness: the scenario-2 store, where the pre-check passes and the
reduction pass indeed succeeds. -/
theorem precheck_implies_reduce_succeeds_witness :
    ∃ st', reduceAll storeS2 basketB.items = .ok st' :=
  precheck_implies_reduce_succeeds (by decide) (by decide) (by decide) rfl

/-- C1 counterexample: in storeMix every basket item references an existing
product with stock at least the requested quantity (the semantic pre-check
condition holds, derived from the passing checkStock), the basket is stored
and retrievable, yet CreateOrder does not succeed and returns no order:
order construction fails on the mixed currencies after the stock-reduction
pass. This refutes the claim's "CreateOrder succeeds" as universally
stated. -/
theorem createOrder_mixed_currency_counterexample :
    (∀ it ∈ basketMix.items, ∃ p, findProduct storeMix it.productID = .ok p ∧
      ¬(p.stock.value < it.quantity.value)) ∧
    findBasket storeMix "b1" = .ok basketMix ∧
    CreateOrder storeMix "b1" "o1" =
      .error "cannot add money with different currencies" :=
  ⟨checkStock_ok_iff.mp (show checkStock storeMix basketMix.items = .ok () from rfl),
   rfl, rfl⟩

/-- C1 witness: spec scenario 2, checkout of basketB against storeS2 yields
a PENDING order with total 2000 USD, stock 5 becomes 3, and the basket is
stored empty. -/
theorem createOrder_checkout_success_witness :
    checkStock storeS2 basketB.items = .ok () ∧
    basketB.Total = .ok ⟨2000, "USD"⟩ ∧
    (∃ ois st', CreateOrder storeS2 "b1" "o1" =
        .ok (⟨"o1", ois, ⟨2000, "USD"⟩, .pending⟩, st') ∧
      (∀ it ∈ basketB.items, ∃ p, findProduct storeS2 it.productID = .ok p ∧
        findProduct st' it.productID =
          .ok { p with stock := ⟨p.stock.value - it.quantity.value⟩ }) ∧
      findBasket st' "b1" = .ok basketB.Clear ∧ (basketB.Clear).IsEmpty = true) :=
  ⟨rfl, rfl,
   createOrder_checkout_success (by decide) rfl rfl (by decide) (by decide)
     (by decide) rfl rfl⟩

/-- C7 counterexample: a basket whose single item already carries the
maximal int64 quantity; adding one more unit of the same product id fails
(the int64 quantity sum wraps negative) instead of leaving one item with
the summed quantity. -/
theorem basket_addItem_overflow_counterexample :
    (∃ it ∈ (ReconstructBasket "b1"
        [⟨"p1", ⟨9223372036854775807⟩, ⟨100, "USD"⟩⟩]).items, it.productID = "p1") ∧
    Basket.AddItem
      (ReconstructBasket "b1" [⟨"p1", ⟨9223372036854775807⟩, ⟨100, "USD"⟩⟩])
      "p1" ⟨1⟩ ⟨100, "USD"⟩ = .error "quantity cannot be negative" :=
  ⟨⟨⟨"p1", ⟨9223372036854775807⟩, ⟨100, "USD"⟩⟩, by simp [ReconstructBasket], rfl⟩,
   by rfl⟩

theorem addItemToList_absent {pid : String} {q : Quantity} {price : Money}
    (hpid : pid ≠ "") (hqz : q.value ≠ 0) :
    ∀ items : List BasketItem, (∀ it ∈ items, it.productID ≠ pid) →
    addItemToList pid q price items = .ok (items ++ [⟨pid, q, price⟩]) := by
  intro items
  induction items with
  | nil =>
    intro _
    unfold addItemToList NewBasketItem
    rw [if_neg hpid, if_neg (by simp [Quantity.IsZero, hqz])]
    rfl
  | cons item rest ih =>
    intro h
    unfold addItemToList
    rw [if_neg (fun hc => h item (List.mem_cons_self _ _) hc),
      ih (fun it hit => h it (List.mem_cons_of_mem _ hit))]
    rfl

theorem addItemToList_present {pid : String} {q : Quantity} {price : Money}
    {old : BasketItem}
    (hpid : pid ≠ "") (hq : 0 ≤ q.value) (hold : 0 < old.quantity.value)
    (hsum : old.quantity.value + q.value < i64Half) :
    ∀ items : List BasketItem,
    items.Pairwise (fun x y => x.productID ≠ y.productID) →
    old ∈ items → old.productID = pid →
    ∃ items', addItemToList pid q price items = .ok items' ∧
      items'.filter (fun it => it.productID == pid) =
        [⟨pid, ⟨old.quantity.value + q.value⟩, price⟩] ∧
      items'.length = items.length := by
  intro items
  induction items with
  | nil =>
    intro _ hmem
    cases hmem
  | cons item rest ih =>
    intro hdist hmem hpe
    obtain ⟨hhead, htail⟩ := List.pairwise_cons.mp hdist
    by_cases hmatch : item.productID = pid
    · have hoi : old = item := by
        cases List.mem_cons.mp hmem with
        | inl h => exact h
        | inr h => exact absurd (hmatch.trans hpe.symm) (hhead old h)
      subst hoi
      unfold addItemToList
      rw [if_pos hmatch]
      have hadd : old.quantity.Add q = .ok ⟨old.quantity.value + q.value⟩ := by
        unfold Quantity.Add NewQuantity
        rw [wrap64_id (by simp only [i64Half] at *; omega) hsum, if_neg (by omega)]
      rw [hadd]
      dsimp only
      have hnew : NewBasketItem pid ⟨old.quantity.value + q.value⟩ price =
          .ok ⟨pid, ⟨old.quantity.value + q.value⟩, price⟩ := by
        unfold NewBasketItem
        rw [if_neg hpid, if_neg (by simp [Quantity.IsZero]; omega)]
      rw [hnew]
      dsimp only
      refine ⟨_, rfl, ?_, rfl⟩
      rw [List.filter_cons_of_pos (by simp)]
      rw [List.filter_eq_nil_iff.mpr ?_]
      · intro y hy
        simp only [beq_iff_eq]
        exact fun hc => (hhead y hy) (hmatch.trans hc.symm)
    · have hmem' : old ∈ rest := by
        cases List.mem_cons.mp hmem with
        | inl h => exact absurd (h ▸ hpe) hmatch
        | inr h => exact h
      obtain ⟨items', hi, hf, hl⟩ := ih htail hmem' hpe
      unfold addItemToList
      rw [if_neg hmatch, hi]
      dsimp only
      refine ⟨item :: items', rfl, ?_, by simp [hl]⟩
      rw [List.filter_cons_of_neg (by simp [hmatch])]
      exact hf

/-- C7 (amended): for a basket whose items keep the constructor invariants
(pairwise-distinct product ids, positive int64 quantities), adding an
already-present non-empty productID with a non-negative quantity whose sum
with the existing quantity stays within int64 leaves exactly one item with
that productID, carrying the summed quantity and the incoming price
(last-write-wins), with the item count unchanged; adding an absent
productID with a non-zero quantity appends a new item at the end. Without
the int64 bound the original claim fails, see the overflow
counterexample. -/
theorem basket_addItem_spec :
    (∀ (b : Basket) (pid : String) (q : Quantity) (price : Money) (old : BasketItem),
      b.items.Pairwise (fun x y => x.productID ≠ y.productID) →
      old ∈ b.items → old.productID = pid → pid ≠ "" →
      0 ≤ q.value → 0 < old.quantity.value →
      old.quantity.value + q.value < i64Half →
      ∃ b', b.AddItem pid q price = .ok b' ∧
        b'.items.filter (fun it => it.productID == pid) =
          [⟨pid, ⟨old.quantity.value + q.value⟩, price⟩] ∧
        b'.items.length = b.items.length) ∧
    (∀ (b : Basket) (pid : String) (q : Quantity) (price : Money),
      (∀ it ∈ b.items, it.productID ≠ pid) → pid ≠ "" → q.value ≠ 0 →
      b.AddItem pid q price = .ok ⟨b.id, b.items ++ [⟨pid, q, price⟩]⟩) := by
  constructor
  · intro b pid q price old hdist hmem hpe hpid hq hold hsum
    obtain ⟨items', hi, hf, hl⟩ :=
      addItemToList_present hpid hq hold hsum b.items hdist hmem hpe
    unfold Basket.AddItem
    rw [hi]
    exact ⟨⟨b.id, items'⟩, rfl, hf, hl⟩
  · intro b pid q price habs hpid hqz
    unfold Basket.AddItem
    rw [addItemToList_absent hpid hqz b.items habs]

/-- C7 witness: adding 3 more of the already-present product p1 at a new
price yields one p1 item with quantity 5 and the new price; adding the
absent product p2 appends a new item. -/
theorem basket_addItem_spec_witness :
    (∃ b', Basket.AddItem basketB "p1" ⟨3⟩ ⟨1200, "USD"⟩ = .ok b' ∧
      b'.items.filter (fun it => it.productID == "p1") =
        [⟨"p1", ⟨5⟩, ⟨1200, "USD"⟩⟩] ∧
      b'.items.length = basketB.items.length) ∧
    Basket.AddItem basketB "p2" ⟨1⟩ ⟨500, "USD"⟩ =
      .ok ⟨"b1", basketB.items ++ [⟨"p2", ⟨1⟩, ⟨500, "USD"⟩⟩]⟩ :=
  ⟨basket_addItem_spec.1 basketB "p1" ⟨3⟩ ⟨1200, "USD"⟩ ⟨"p1", ⟨2⟩, ⟨1000, "USD"⟩⟩
     (by decide) (by decide) rfl (by decide) (by decide) (by decide) (by decide),
   basket_addItem_spec.2 basketB "p2" ⟨1⟩ ⟨500, "USD"⟩ (by decide) (by decide) (by decide)⟩

/-- C8 counterexample: a non-empty basket whose items all share the
currency USD, but whose single subtotal (2^62 cents times 2) overflows
int64: Total fails with the negative-amount error instead of returning the
sum of subtotals, refuting the claim as universally stated. -/
theorem basket_total_overflow_counterexample :
    (ReconstructBasket "b1" [⟨"p1", ⟨2⟩, ⟨4611686018427387904, "USD"⟩⟩]).items ≠ [] ∧
    (∀ it ∈ (ReconstructBasket "b1" [⟨"p1", ⟨2⟩, ⟨4611686018427387904, "USD"⟩⟩]).items,
      it.price.currency = "USD") ∧
    (ReconstructBasket "b1" [⟨"p1", ⟨2⟩, ⟨4611686018427387904, "USD"⟩⟩]).Total =
      .error "amount cannot be negative" :=
  ⟨by decide, by decide, by rfl⟩

/-- C8 (amended): Total of an empty basket is the zero Money in the
hardcoded currency USD; for a non-empty basket with valid prices and
non-negative quantities whose exact subtotal sum stays within int64, if all
items share the first item's currency then Total returns exactly the sum of
every item's subtotal in that currency, and if some item's currency differs
from the first item's then Total fails with the currency-mismatch error.
Without the int64 bound the claim fails, see the overflow
counterexample. -/
theorem basket_total_spec :
    (∀ b : Basket, b.items = [] → b.Total = .ok ⟨0, "USD"⟩) ∧
    (∀ (b : Basket) (first : BasketItem) (rest : List BasketItem),
      b.items = first :: rest →
      (∀ it ∈ b.items, it.price.Valid ∧ 0 ≤ it.quantity.value) →
      subtotalSum b.items < i64Half →
      (∀ it ∈ b.items, it.price.currency = first.price.currency) →
      b.Total = .ok ⟨subtotalSum b.items, first.price.currency⟩) ∧
    (∀ (b : Basket) (first : BasketItem) (rest : List BasketItem),
      b.items = first :: rest →
      (∀ it ∈ b.items, it.price.Valid ∧ 0 ≤ it.quantity.value) →
      subtotalSum b.items < i64Half →
      (∃ it ∈ b.items, it.price.currency ≠ first.price.currency) →
      b.Total = .error "cannot add money with different currencies") := by
  refine ⟨?_, ?_, ?_⟩
  · intro b hb
    unfold Basket.Total
    rw [hb]
    dsimp only
    unfold NewMoney
    rw [if_neg (by omega), if_neg (by decide)]
  · intro b first rest hitems hval hbound hcurr
    obtain ⟨⟨hf0, hfH, hfne⟩, hfq⟩ := hval first (by rw [hitems]; exact List.mem_cons_self _ _)
    unfold Basket.Total
    rw [hitems] at hval hbound hcurr ⊢
    dsimp only
    have hz : NewMoney 0 first.price.currency = .ok ⟨0, first.price.currency⟩ := by
      unfold NewMoney
      rw [if_neg (by omega), if_neg hfne]
    rw [hz]
    dsimp only
    have hs := sumBasketSubtotals_ok hfne (first :: rest) ⟨0, first.price.currency⟩ rfl
      (le_refl 0)
      (fun it hit => ⟨hcurr it hit, (hval it hit).1.1, (hval it hit).2⟩)
      (by dsimp only; omega)
    rw [hs]
    simp
  · intro b first rest hitems hval hbound hex
    obtain ⟨⟨hf0, hfH, hfne⟩, hfq⟩ := hval first (by rw [hitems]; exact List.mem_cons_self _ _)
    unfold Basket.Total
    rw [hitems] at hval hbound hex ⊢
    dsimp only
    have hz : NewMoney 0 first.price.currency = .ok ⟨0, first.price.currency⟩ := by
      unfold NewMoney
      rw [if_neg (by omega), if_neg hfne]
    rw [hz]
    dsimp only
    exact sumBasketSubtotals_mismatch hfne (first :: rest) ⟨0, first.price.currency⟩ rfl
      (le_refl 0)
      (fun it hit => ⟨(hval it hit).1.2.2, (hval it hit).1.1, (hval it hit).2⟩)
      (by dsimp only; omega)
      hex

/-- C8 witness: the empty basket totals 0 USD; basketB (one item, price
1000 USD, quantity 2) totals exactly its subtotal sum 2000 USD; a
two-currency basket fails with the mismatch error. -/
theorem basket_total_spec_witness :
    (NewBasket "be").Total = .ok ⟨0, "USD"⟩ ∧
    basketB.Total = .ok ⟨2000, "USD"⟩ ∧
    basketMix.Total = .error "cannot add money with different currencies" :=
  ⟨basket_total_spec.1 (NewBasket "be") rfl,
   basket_total_spec.2.1 basketB ⟨"p1", ⟨2⟩, ⟨1000, "USD"⟩⟩ [] rfl
     (by decide) (by decide) (by decide),
   basket_total_spec.2.2 basketMix ⟨"p1", ⟨1⟩, ⟨100, "USD"⟩⟩
     [⟨"p2", ⟨1⟩, ⟨100, "EUR"⟩⟩] rfl (by decide) (by decide)
     ⟨⟨"p2", ⟨1⟩, ⟨100, "EUR"⟩⟩, by simp [basketMix], by decide⟩⟩

/-! ## Basket invariant lemmas -/

theorem NewQuantity_ok_inv {x : Int} {q : Quantity} (h : NewQuantity x = .ok q) :
    q.value = x ∧ 0 ≤ x := by
  unfold NewQuantity at h
  split at h
  · cases h
  case isFalse hc =>
    cases h
    exact ⟨rfl, by omega⟩

theorem NewBasketItem_ok_inv {pid : String} {q : Quantity} {price : Money}
    {it : BasketItem} (h : NewBasketItem pid q price = .ok it) :
    it = ⟨pid, q, price⟩ ∧ pid ≠ "" ∧ q.value ≠ 0 := by
  unfold NewBasketItem at h
  split at h
  · cases h
  case isFalse hpid =>
    split at h
    · cases h
    case isFalse hqz =>
      cases h
      refine ⟨rfl, hpid, ?_⟩
      simpa [Quantity.IsZero] using hqz

theorem QuantityAdd_ok_inv {a b q : Quantity} (h : a.Add b = .ok q) :
    0 ≤ q.value := by
  unfold Quantity.Add at h
  obtain ⟨hv, h0⟩ := NewQuantity_ok_inv h
  omega

theorem addItemToList_wf {pid : String} {q : Quantity} {price : Money}
    (hq : 0 ≤ q.value) :
    ∀ {items items' : List BasketItem},
    items.Pairwise (fun x y => x.productID ≠ y.productID) →
    (∀ it ∈ items, 0 < it.quantity.value) →
    addItemToList pid q price items = .ok items' →
    items'.Pairwise (fun x y => x.productID ≠ y.productID) ∧
    (∀ it ∈ items', 0 < it.quantity.value) ∧
    (∀ it ∈ items', it.productID = pid ∨ ∃ x ∈ items, it.productID = x.productID) := by
  intro items
  induction items with
  | nil =>
    intro items' _ _ h
    unfold addItemToList at h
    cases hn : NewBasketItem pid q price with
    | error e => rw [hn] at h; cases h
    | ok item =>
      rw [hn] at h
      cases h
      obtain ⟨heq, hpid, hqz⟩ := NewBasketItem_ok_inv hn
      subst heq
      refine ⟨by simp, ?_, ?_⟩
      · intro it hit
        rw [List.mem_singleton] at hit
        subst hit
        dsimp only
        omega
      · intro it hit
        rw [List.mem_singleton] at hit
        subst hit
        exact Or.inl rfl
  | cons item rest ih =>
    intro items' hdist hpos h
    obtain ⟨hhead, htail⟩ := List.pairwise_cons.mp hdist
    unfold addItemToList at h
    split at h
    case isTrue hmatch =>
      cases ha : item.quantity.Add q with
      | error e => rw [ha] at h; cases h
      | ok nq =>
        rw [ha] at h
        dsimp only at h
        cases hn : NewBasketItem pid nq price with
        | error e => rw [hn] at h; cases h
        | ok newItem =>
          rw [hn] at h
          cases h
          obtain ⟨heq, hpid, hqz⟩ := NewBasketItem_ok_inv hn
          subst heq
          have hnq0 : 0 ≤ nq.value := QuantityAdd_ok_inv ha
          refine ⟨?_, ?_, ?_⟩
          · rw [List.pairwise_cons]
            refine ⟨?_, htail⟩
            intro y hy
            exact fun hc => (hhead y hy) (hmatch.trans hc)
          · intro it hit
            cases List.mem_cons.mp hit with
            | inl he => subst he; dsimp only; omega
            | inr hm => exact hpos it (List.mem_cons_of_mem _ hm)
          · intro it hit
            cases List.mem_cons.mp hit with
            | inl he => subst he; exact Or.inl rfl
            | inr hm => exact Or.inr ⟨it, List.mem_cons_of_mem _ hm, rfl⟩
    case isFalse hmatch =>
      cases hr : addItemToList pid q price rest with
      | error e => rw [hr] at h; cases h
      | ok rest' =>
        rw [hr] at h
        cases h
        obtain ⟨hp1, hp2, hp3⟩ :=
          ih htail (fun it hit => hpos it (List.mem_cons_of_mem _ hit)) hr
        refine ⟨?_, ?_, ?_⟩
        · rw [List.pairwise_cons]
          refine ⟨?_, hp1⟩
          intro y hy
          cases hp3 y hy with
          | inl he => exact fun hc => hmatch (hc.trans he)
          | inr hx =>
            obtain ⟨x, hxm, he⟩ := hx
            exact fun hc => (hhead x hxm) (hc.trans he)
        · intro it hit
          cases List.mem_cons.mp hit with
          | inl he => rw [he]; exact hpos item (List.mem_cons_self _ _)
          | inr hm => exact hp2 it hm
        · intro it hit
          cases List.mem_cons.mp hit with
          | inl he => rw [he]; exact Or.inr ⟨item, List.mem_cons_self _ _, rfl⟩
          | inr hm =>
            cases hp3 it hm with
            | inl he => exact Or.inl he
            | inr hx =>
              obtain ⟨x, hxm, he⟩ := hx
              exact Or.inr ⟨x, List.mem_cons_of_mem _ hxm, he⟩

theorem removeItemFromList_sublist {pid : String} :
    ∀ {items items' : List BasketItem},
    removeItemFromList pid items = .ok items' → items'.Sublist items := by
  intro items
  induction items with
  | nil =>
    intro items' h
    cases h
  | cons item rest ih =>
    intro items' h
    unfold removeItemFromList at h
    split at h
    · cases h
      exact List.sublist_cons_self _ _
    · cases hr : removeItemFromList pid rest with
      | error e => rw [hr] at h; cases h
      | ok rest' =>
        rw [hr] at h
        cases h
        exact List.Sublist.cons₂ item (ih hr)

theorem updateItemInList_wf {pid : String} {q : Quantity} (hq : 0 ≤ q.value) :
    ∀ {items items' : List BasketItem},
    items.Pairwise (fun x y => x.productID ≠ y.productID) →
    (∀ it ∈ items, 0 < it.quantity.value) →
    updateItemInList pid q items = .ok items' →
    items'.Pairwise (fun x y => x.productID ≠ y.productID) ∧
    (∀ it ∈ items', 0 < it.quantity.value) ∧
    (∀ it ∈ items', ∃ x ∈ items, it.productID = x.productID) := by
  intro items
  induction items with
  | nil =>
    intro items' _ _ h
    cases h
  | cons item rest ih =>
    intro items' hdist hpos h
    obtain ⟨hhead, htail⟩ := List.pairwise_cons.mp hdist
    unfold updateItemInList at h
    split at h
    case isTrue hmatch =>
      cases hn : NewBasketItem pid q item.price with
      | error e => rw [hn] at h; cases h
      | ok newItem =>
        rw [hn] at h
        cases h
        obtain ⟨heq, hpid, hqz⟩ := NewBasketItem_ok_inv hn
        subst heq
        refine ⟨?_, ?_, ?_⟩
        · rw [List.pairwise_cons]
          refine ⟨?_, htail⟩
          intro y hy
          exact fun hc => (hhead y hy) (hmatch.trans hc)
        · intro it hit
          cases List.mem_cons.mp hit with
          | inl he => subst he; dsimp only; omega
          | inr hm => exact hpos it (List.mem_cons_of_mem _ hm)
        · intro it hit
          cases List.mem_cons.mp hit with
          | inl he => subst he; exact ⟨item, List.mem_cons_self _ _, hmatch.symm⟩
          | inr hm => exact ⟨it, List.mem_cons_of_mem _ hm, rfl⟩
    case isFalse hmatch =>
      cases hr : updateItemInList pid q rest with
      | error e => rw [hr] at h; cases h
      | ok rest' =>
        rw [hr] at h
        cases h
        obtain ⟨hp1, hp2, hp3⟩ :=
          ih htail (fun it hit => hpos it (List.mem_cons_of_mem _ hit)) hr
        refine ⟨?_, ?_, ?_⟩
        · rw [List.pairwise_cons]
          refine ⟨?_, hp1⟩
          intro y hy
          obtain ⟨x, hxm, he⟩ := hp3 y hy
          exact fun hc => (hhead x hxm) (hc.trans he)
        · intro it hit
          cases List.mem_cons.mp hit with
          | inl he => rw [he]; exact hpos item (List.mem_cons_self _ _)
          | inr hm => exact hp2 it hm
        · intro it hit
          cases List.mem_cons.mp hit with
          | inl he => rw [he]; exact ⟨item, List.mem_cons_self _ _, rfl⟩
          | inr hm =>
            obtain ⟨x, hxm, he⟩ := hp3 it hm
            exact ⟨x, List.mem_cons_of_mem _ hxm, he⟩

theorem basket_addItem_wf {b b' : Basket} {pid : String} {q : Quantity}
    {price : Money} (hwf : BasketWF b) (hq : 0 ≤ q.value)
    (h : b.AddItem pid q price = .ok b') : BasketWF b' := by
  unfold Basket.AddItem at h
  cases hl : addItemToList pid q price b.items with
  | error e => rw [hl] at h; cases h
  | ok items' =>
    rw [hl] at h
    cases h
    obtain ⟨h1, h2, _⟩ := addItemToList_wf hq hwf.1 hwf.2 hl
    exact ⟨h1, h2⟩

theorem basket_removeItem_wf {b b' : Basket} {pid : String}
    (hwf : BasketWF b) (h : b.RemoveItem pid = .ok b') : BasketWF b' := by
  unfold Basket.RemoveItem at h
  cases hl : removeItemFromList pid b.items with
  | error e => rw [hl] at h; cases h
  | ok items' =>
    rw [hl] at h
    cases h
    have hsub := removeItemFromList_sublist hl
    exact ⟨hwf.1.sublist hsub, fun it hit => hwf.2 it (hsub.subset hit)⟩

theorem basket_updateItemQuantity_wf {b b' : Basket} {pid : String} {q : Quantity}
    (hwf : BasketWF b) (hq : 0 ≤ q.value)
    (h : b.UpdateItemQuantity pid q = .ok b') : BasketWF b' := by
  unfold Basket.UpdateItemQuantity at h
  split at h
  · exact basket_removeItem_wf hwf h
  · cases hl : updateItemInList pid q b.items with
    | error e => rw [hl] at h; cases h
    | ok items' =>
      rw [hl] at h
      cases h
      obtain ⟨h1, h2, _⟩ := updateItemInList_wf hq hwf.1 hwf.2 hl
      exact ⟨h1, h2⟩

/-- C10: ReconstructBasket and ReconstructProduct perform no validation:
a duplicate-product-id item list and a zero-quantity item pass through
unchecked, yielding baskets that violate the unique-productID and
positive-quantity invariants, and an empty product name passes through
ReconstructProduct though NewProduct rejects it; the invariants are kept
exactly by the constructor path, as NewBasket establishes them and AddItem,
RemoveItem and UpdateItemQuantity preserve them (for quantities from
NewQuantity, i.e. with non-negative value). -/
theorem reconstruct_no_validation_invariants :
    ¬BasketWF (ReconstructBasket "b1"
      [⟨"p1", ⟨1⟩, ⟨100, "USD"⟩⟩, ⟨"p1", ⟨1⟩, ⟨100, "USD"⟩⟩]) ∧
    ¬BasketWF (ReconstructBasket "b2" [⟨"p1", ⟨0⟩, ⟨100, "USD"⟩⟩]) ∧
    (ReconstructProduct "id1" "" "" ⟨100, "USD"⟩ ⟨1⟩).name = "" ∧
    NewProduct "id1" "" "" ⟨100, "USD"⟩ ⟨1⟩ = .error "product name cannot be empty" ∧
    (∀ id, BasketWF (NewBasket id)) ∧
    (∀ (b : Basket) (pid : String) (q : Quantity) (price : Money) (b' : Basket),
      BasketWF b → 0 ≤ q.value → b.AddItem pid q price = .ok b' → BasketWF b') ∧
    (∀ (b : Basket) (pid : String) (b' : Basket),
      BasketWF b → b.RemoveItem pid = .ok b' → BasketWF b') ∧
    (∀ (b : Basket) (pid : String) (q : Quantity) (b' : Basket),
      BasketWF b → 0 ≤ q.value → b.UpdateItemQuantity pid q = .ok b' → BasketWF b') := by
  refine ⟨?_, ?_, rfl, rfl, ?_, ?_, ?_, ?_⟩
  · intro hwf
    have := List.pairwise_cons.mp hwf.1
    exact this.1 ⟨"p1", ⟨1⟩, ⟨100, "USD"⟩⟩ (List.mem_cons_self _ _) rfl
  · intro hwf
    have := hwf.2 ⟨"p1", ⟨0⟩, ⟨100, "USD"⟩⟩ (List.mem_cons_self _ _)
    simp at this
  · intro id
    exact ⟨List.Pairwise.nil, fun it hit => absurd hit (List.not_mem_nil _)⟩
  · intro b pid q price b' hwf hq h
    exact basket_addItem_wf hwf hq h
  · intro b pid b' hwf h
    exact basket_removeItem_wf hwf h
  · intro b pid q b' hwf hq h
    exact basket_updateItemQuantity_wf hwf hq h

/-- C10 witness: the invariants hold for the basket obtained by adding a
fresh product to the constructor-invariant basket basketB. -/
theorem reconstruct_no_validation_invariants_witness :
    BasketWF ⟨"b1", [⟨"p1", ⟨2⟩, ⟨1000, "USD"⟩⟩, ⟨"p2", ⟨1⟩, ⟨500, "USD"⟩⟩]⟩ :=
  reconstruct_no_validation_invariants.2.2.2.2.2.1 basketB "p2" ⟨1⟩ ⟨500, "USD"⟩
    ⟨"b1", [⟨"p1", ⟨2⟩, ⟨1000, "USD"⟩⟩, ⟨"p2", ⟨1⟩, ⟨500, "USD"⟩⟩]⟩
    ⟨by simp [basketB], by
      intro it hit
      simp only [basketB, List.mem_singleton] at hit
      subst hit
      decide⟩
    (by decide) rfl
